import Mathlib

/-!
# Verification of the Capitol Wire ingestion server (`src/server.js`)

The file contains two express servers ("variant A", lines 1-252, and
"variant B", lines 253-389).  This development shallowly embeds the
request handlers and their helper functions:

* JavaScript string operations used by the handlers (`trim`,
  `String.prototype.replace` with the concrete regexes appearing in the
  source, truthiness of strings) are modelled as executable functions on
  `List Char` / `String`;
* outbound HTTP calls (Gemini, the Twitter oEmbed endpoint, the
  syndication endpoint, FCM) are modelled by environment values that
  enumerate every outcome the JS code distinguishes (fetch rejection,
  non-ok status, JSON parse failure, parsed payload);
* the PostgreSQL table `summaries` is modelled as a `List SummaryRecord`;
  variant A's `INSERT ... ON CONFLICT (tweet_url) DO NOTHING` and
  variant B's plain `INSERT` are modelled separately, exactly as issued;
* `setTimeout` delays and retry attempts are counted rather than waited.

Each section cites the line numbers of `src/server.js` it embeds.
-/

namespace CapitolWire

/-! ## JavaScript string primitives -/

/-- Truthiness of a JS value that is `undefined` or a string:
`undefined` and `""` are falsy, every other string is truthy. -/
def jsTruthy : Option String → Bool
  | none => false
  | some s => s ≠ ""

/-- Whitespace for `String.prototype.trim` (the characters relevant to
this code base: ASCII blanks plus the Unicode line separators). -/
def jsWhitespace (c : Char) : Bool :=
  c == ' ' || c == '\t' || c == '\n' || c == '\r' ||
  c == Char.ofNat 11 || c == Char.ofNat 12 || c == Char.ofNat 160 ||
  c == Char.ofNat 8232 || c == Char.ofNat 8233 || c == Char.ofNat 65279

/-- `String.prototype.trim` on the underlying character list. -/
def trimChars (l : List Char) : List Char :=
  ((l.dropWhile jsWhitespace).reverse.dropWhile jsWhitespace).reverse

/-- `s.trim()`. -/
def jsTrim (s : String) : String :=
  (trimChars s.toList).asString

/-- Does `pat` occur as an initial segment of `l`? -/
def matchesAt : List Char → List Char → Bool
  | [], _ => true
  | _ :: _, [] => false
  | p :: ps, c :: cs => p == c && matchesAt ps cs

/-- One pass of `s.replace(/pat/g, repl)` for a literal pattern `pat`:
non-overlapping, left to right, the replacement is not rescanned.
`fuel` bounds the recursion; `fuel = l.length` always suffices because
every step consumes at least one character of `l`. -/
def replaceSeq (pat repl : List Char) : Nat → List Char → List Char
  | 0, l => l
  | _, [] => []
  | fuel + 1, c :: rest =>
    if matchesAt pat (c :: rest) && pat ≠ [] then
      repl ++ replaceSeq pat repl fuel (List.drop pat.length (c :: rest))
    else
      c :: replaceSeq pat repl fuel rest

/-- `s.replace(/pat/g, repl)` for a literal pattern. -/
def replaceAll (pat repl l : List Char) : List Char :=
  replaceSeq pat repl l.length l

/-- server.js:181 — the five entity replacements applied in source order:
`&amp;` → `&`, `&lt;` → `<`, `&gt;` → `>`, `&quot;` → `"`, `&#39;` → the
apostrophe character (code 39).  No other entity is decoded. -/
def decodeEntities (l : List Char) : List Char :=
  let r1 := replaceAll ['&', 'a', 'm', 'p', ';'] ['&'] l
  let r2 := replaceAll ['&', 'l', 't', ';'] ['<'] r1
  let r3 := replaceAll ['&', 'g', 't', ';'] ['>'] r2
  let r4 := replaceAll ['&', 'q', 'u', 'o', 't', ';'] ['"'] r3
  replaceAll ['&', '#', '3', '9', ';'] [Char.ofNat 39] r4

/-- Skip to just past the first `>`; `none` when no `>` occurs. -/
def dropThroughGt : List Char → Option (List Char)
  | [] => none
  | c :: rest => if c = '>' then some rest else dropThroughGt rest

/-- server.js:181 — `.replace(/<[^>]+>/g, '')`.  At each position a tag
match needs a `<`, then one or more characters other than `>`, then `>`
(so `<>` does not match); on a match scanning resumes after the `>`.
`fuel = l.length` suffices: every step consumes at least one character. -/
def stripTagsGo : Nat → List Char → List Char
  | 0, l => l
  | _, [] => []
  | fuel + 1, '<' :: rest =>
    match rest with
    | '>' :: _ => '<' :: stripTagsGo fuel rest
    | _ =>
      match dropThroughGt rest with
      | some rem => stripTagsGo fuel rem
      | none => '<' :: stripTagsGo fuel rest
  | fuel + 1, c :: rest => c :: stripTagsGo fuel rest

def stripTags (l : List Char) : List Char :=
  stripTagsGo l.length l

/-- A character the JS regex `.` (no `s` flag) refuses to match. -/
def jsLineTerminator (c : Char) : Bool :=
  c == '\n' || c == '\r' || c == Char.ofNat 8232 || c == Char.ofNat 8233

/-- The lazy group `(.*?)<\/p>`: the shortest run of non-line-terminator
characters followed immediately by `</p>`; `none` when no such run
starts here. -/
def lazyContent : List Char → Option (List Char)
  | '<' :: '/' :: 'p' :: '>' :: _ => some []
  | [] => none
  | c :: rest =>
    if jsLineTerminator c then none
    else (lazyContent rest).map (c :: ·)

/-- `[^>]*>`: greedily consume characters other than `>`, then require
`>`; returns what follows the `>`. -/
def takeUntilGt : List Char → Option (List Char)
  | [] => none
  | c :: rest => if c = '>' then some rest else takeUntilGt rest

/-- Attempt the regex `<p[^>]*>(.*?)<\/p>` anchored at this position:
literal `<p`, then `[^>]*>`, then the lazy capture. -/
def tryPAt : List Char → Option (List Char)
  | '<' :: 'p' :: rest =>
    match takeUntilGt rest with
    | some afterGt => lazyContent afterGt
    | none => none
  | _ => none

/-- server.js:179 — `html.match(/<p[^>]*>(.*?)<\/p>/)`: leftmost match,
returning the captured group. -/
def findPMatch : List Char → Option (List Char)
  | [] => none
  | c :: rest =>
    match tryPAt (c :: rest) with
    | some content => some content
    | none => findPMatch rest

/-- server.js:179-182 — the capture of the first `<p...>...</p>` with
tags stripped and the five entities decoded; `none` when the regex does
not match. -/
def extractParagraph (html : String) : Option String :=
  (findPMatch html.toList).map fun content =>
    (decodeEntities (stripTags content)).asString

/-! ## Summarization client (`callGeminiSummary`, server.js:130-168) -/

/-- Decidable equality of throw-or-return outcomes. -/
instance {ε α : Type} [DecidableEq ε] [DecidableEq α] :
    DecidableEq (Except ε α) := fun a b =>
  match a, b with
  | .error e, .error f =>
    if h : e = f then .isTrue (by rw [h]) else .isFalse (by simp [h])
  | .ok x, .ok y =>
    if h : x = y then .isTrue (by rw [h]) else .isFalse (by simp [h])
  | .error _, .ok _ => .isFalse (by simp)
  | .ok _, .error _ => .isFalse (by simp)

/-- What one `fetch` of the Gemini endpoint can yield, as the JS code
distinguishes outcomes: a rejected promise, or a response with a status
code, a body text (the resolved `res.text()`), and a JSON-parse outcome
for the body (`res.json()` may itself throw). -/
inductive GeminiFetch where
  | netErr (msg : String)
  | resp (status : Nat) (bodyText : String) (json : Except String (Option String))
deriving DecidableEq

/-- server.js:144-156 — the body of one iteration of the retry loop.
`503` throws `Gemini overload 503`; any other non-2xx status throws
`Gemini error <status>: <body>`; a JSON parse failure propagates; on
success the first candidate text (`''` when absent) is trimmed.
The `Option String` in `GeminiFetch.resp` models
`data?.candidates?.[0]?.content?.parts?.[0]?.text`, and `|| ''` maps a
missing or empty fragment to `''`. -/
def geminiAttempt : GeminiFetch → Except String String
  | .netErr m => .error m
  | .resp status bodyText json =>
    if status == 503 then .error "Gemini overload 503"
    else if 200 ≤ status ∧ status < 300 then
      match json with
      | .error m => .error m
      | .ok cand => .ok (jsTrim (cand.getD ""))
    else .error ("Gemini error " ++ toString status ++ ": " ++ bodyText)

/-- The observable outcome of `callGeminiSummary`: the returned summary
or thrown error, the number of fetch attempts made, and the total
`setTimeout` delay in milliseconds. -/
structure GeminiRun where
  result : Except String String
  attempts : Nat
  delayMs : Nat
deriving DecidableEq, Repr

/-- server.js:142-166 — the retry loop.  `attempt` is the JS loop
index, `remaining` the number of loop iterations still allowed
(`MAX_RETRIES + 1 - attempt`); after a failed attempt an 8000 ms delay
occurs only when another attempt follows.  When the attempts are
exhausted, server.js:167 throws with the last error's message. -/
def geminiGo (backend : Nat → GeminiFetch) : Nat → Nat → String → GeminiRun
  | _, 0, lastErr =>
    ⟨.error ("Gemini failed after 6 attempts: " ++ lastErr), 0, 0⟩
  | attempt, remaining + 1, _ =>
    match geminiAttempt (backend attempt) with
    | .ok s => ⟨.ok s, 1, 0⟩
    | .error e =>
      let rest := geminiGo backend (attempt + 1) remaining e
      ⟨rest.result, rest.attempts + 1,
        rest.delayMs + (if remaining = 0 then 0 else 8000)⟩

/-- server.js:130-168 — `callGeminiSummary`.  `key` is
`process.env.GEMINI_API_KEY` (`none` when unset); a falsy key throws
`Missing GEMINI_API_KEY` before any attempt (server.js:131).
`MAX_RETRIES = 5`, so the loop admits 6 iterations. -/
def callGeminiSummary (key : Option String) (backend : Nat → GeminiFetch) :
    GeminiRun :=
  if key.getD "" = "" then ⟨.error "Missing GEMINI_API_KEY", 0, 0⟩
  else geminiGo backend 0 6 ""

/-! ## Content fetcher (`fetchTweetText`, server.js:171-194) -/

/-- The outcome of one lookup (`fetch` + optional `res.json()`), as the
JS code distinguishes: the fetch rejects, the response is not ok (so
`json()` is never called), `json()` throws, or a parsed payload whose
single relevant field (`html` for the oEmbed endpoint, `text` for the
syndication endpoint) may be absent. -/
inductive LookupOutcome where
  | fetchErr (msg : String)
  | notOk
  | badJson (msg : String)
  | okJson (field : Option String)
deriving DecidableEq

/-- The two external endpoints `fetchTweetText` may consult. -/
structure TweetHttpEnv where
  oembed : LookupOutcome
  syndication : LookupOutcome
deriving DecidableEq

/-- server.js:184-189 — the syndication fallback.  The second component
counts the network calls made so far (this path is reached only after
the oEmbed call, hence 2).  A truthy `data2.text` is returned; a falsy
or absent one falls through to `return ''` (server.js:193). -/
def fetchSyndication (env : TweetHttpEnv) : Except String String × Nat :=
  match env.syndication with
  | .fetchErr m => (.error m, 2)
  | .badJson m => (.error m, 2)
  | .notOk => (.ok "", 2)
  | .okJson t => if jsTruthy t then (.ok (t.getD ""), 2) else (.ok "", 2)

/-- server.js:174-189 — the body of the `try` block once `url` is known
to be truthy: oEmbed lookup first (`data.html || ''`, first `<p>` match,
strip + decode), then the syndication fallback.  `.error` is a thrown
exception that the enclosing `catch` will swallow. -/
def fetchInner (env : TweetHttpEnv) : Except String String × Nat :=
  match env.oembed with
  | .fetchErr m => (.error m, 1)
  | .badJson m => (.error m, 1)
  | .okJson html =>
    match extractParagraph (html.getD "") with
    | some s => (.ok s, 1)
    | none => fetchSyndication env
  | .notOk => fetchSyndication env

/-- server.js:171-194 — `fetchTweetText`.  Returns the fetched text and
the number of network calls made; a falsy `url` short-circuits with no
call, and every thrown error is caught and mapped to `''`. -/
def fetchTweetText (url : String) (env : TweetHttpEnv) : String × Nat :=
  if url = "" then ("", 0)
  else
    match fetchInner env with
    | (.ok s, n) => (s, n)
    | (.error _, n) => ("", n)

/-! ## Persistence gateway (server.js:39-72, 293-309, 346-354) -/

/-- One row of the `summaries` table.  `tweet_author` is nullable in
variant A's schema (server.js:46); `created_at` is an abstract
timestamp. -/
structure SummaryRecord where
  summary_text : String
  tweet_author : Option String
  tweet_url : String
  created_at : Nat
deriving DecidableEq, Repr

/-- Number of stored rows whose `tweet_url` equals `url`. -/
def countUrl (db : List SummaryRecord) (url : String) : Nat :=
  (db.filter fun r => r.tweet_url == url).length

/-- server.js:57-72 — variant A's `saveSummaryToDB`: skip when
`DATABASE_URL` is unset, report `false` when the query throws, and run
`INSERT ... ON CONFLICT (tweet_url) DO NOTHING RETURNING id`, which
leaves the table unchanged and returns no row when some row already has
this `tweet_url`.  Yields the new table and `res.rowCount > 0`. -/
def saveSummaryToDB (hasDbUrl dbFails : Bool)
    (db : List SummaryRecord) (summary : String) (author : Option String)
    (url : String) (now : Nat) : List SummaryRecord × Bool :=
  if !hasDbUrl then (db, false)
  else if dbFails then (db, false)
  else if db.any fun r => r.tweet_url == url then (db, false)
  else (db ++ [⟨summary, author, url, now⟩], true)

/-- server.js:348-353 — variant B's insert: a plain
`INSERT INTO summaries ... RETURNING *` with no `ON CONFLICT` clause,
against a schema with no UNIQUE constraint (server.js:296-302).  It
unconditionally appends a row. -/
def insertVariantB (db : List SummaryRecord) (summary author url : String)
    (now : Nat) : List SummaryRecord × SummaryRecord :=
  let r : SummaryRecord := ⟨summary, some author, url, now⟩
  (db ++ [r], r)

/-! ## Feed endpoint (server.js:234-243 and 313-328) -/

/-- The observable response of `GET /feed`. -/
structure FeedResult where
  status : Nat
  ok : Bool
  feed : List SummaryRecord
deriving DecidableEq

/-- The `ORDER BY created_at DESC` comparison: row `a` may precede row
`b` when `a` is at least as new. -/
def newestFirst (a b : SummaryRecord) : Bool :=
  b.created_at ≤ a.created_at

/-- `ORDER BY created_at DESC LIMIT 50`: sort newest first (stably) and
keep at most 50 rows. -/
def recentFeed (db : List SummaryRecord) : List SummaryRecord :=
  (db.mergeSort newestFirst).take 50

/-- server.js:234-243 / 313-328 — both variants' `GET /feed`: on a
successful query, `200` with `ok: true` and the query rows; when the
query throws, `500` with `ok: false` and an error message.  `dbFails`
models the query throwing. -/
def feedHandler (dbFails : Bool) (db : List SummaryRecord) : FeedResult :=
  if dbFails then ⟨500, false, []⟩
  else ⟨200, true, recentFeed db⟩

/-! ## Notification dispatcher (`sendFCMNotification`, server.js:99-127) -/

/-- server.js:99-127 — `sendFCMNotification`: returns `false` without
sending when the Firebase SDK was never set up (`fcmReady = false`,
server.js:100-103), returns `false` when `admin.messaging().send`
throws (server.js:119-126), and `true` on a delivered message.  It
never throws to its caller. -/
def sendFCMNotification (fcmReady sendFails : Bool) : Bool :=
  if !fcmReady then false
  else if sendFails then false
  else true

/-! ## Variant A ingestion (`POST /ingest`, server.js:202-231) -/

/-- server.js:17-21 — `assertAuthorized`: an empty `INGEST_SECRET`
(`process.env.INGEST_SECRET || ''`, server.js:13) authorizes every
request; otherwise the first truthy header among `X-HillPulse-Key` and
`Authorization` (or `''`) must equal the secret or `Bearer <secret>`. -/
def assertAuthorized (secret : String) (xKey auth : Option String) : Bool :=
  if secret = "" then true
  else
    let h := if jsTruthy xKey then xKey.getD ""
             else if jsTruthy auth then auth.getD "" else ""
    h == secret || h == ("Bearer " ++ secret)

/-- The characters up to (not including) the first `/`, requiring that
the `/` exists. -/
def segUntilSlash : List Char → Option (List Char)
  | [] => none
  | c :: rest => if c = '/' then some [] else (segUntilSlash rest).map (c :: ·)

/-- The regex `x\.com\/([^\/]+)\/` anchored here: literal `x.com/`,
then a nonempty capture of non-`/` characters, then `/`. -/
def xComCaptureAt : List Char → Option (List Char)
  | 'x' :: '.' :: 'c' :: 'o' :: 'm' :: '/' :: rest =>
    match rest with
    | [] => none
    | c :: rest2 =>
      if c = '/' then none
      else (segUntilSlash rest2).map (c :: ·)
  | _ => none

/-- server.js:211 — `url.match(/x\.com\/([^\/]+)\//)`: leftmost match,
returning the captured handle. -/
def findXComAuthor : List Char → Option (List Char)
  | [] => none
  | c :: rest =>
    match xComCaptureAt (c :: rest) with
    | some seg => some seg
    | none => findXComAuthor rest

/-- The request fields variant A reads: the two possible auth headers
(`none` models an absent header) and `body.data.{text,author,url}`.
`text` and `url` are read through `|| ''`, so they are plain strings;
`author` is used before any defaulting, so an absent field is `none`. -/
structure RequestA where
  xKey : Option String
  authHeader : Option String
  dataText : String
  dataAuthor : Option String
  dataUrl : String

/-- The process environment and external world of variant A. -/
structure EnvA where
  ingestSecret : String
  geminiKey : Option String
  hasDbUrl : Bool
  dbInsertFails : Bool
  fcmReady : Bool
  fcmSendFails : Bool
  geminiBackend : Nat → GeminiFetch
  tweetHttp : TweetHttpEnv
  now : Nat

/-- server.js:209-213 — `tweet.author`, with the `x.com` handle derived
from the URL when the author field is falsy and the URL truthy. -/
def effectiveAuthor (req : RequestA) : Option String :=
  if jsTruthy req.dataAuthor then req.dataAuthor
  else if req.dataUrl ≠ "" then
    match findXComAuthor req.dataUrl.toList with
    | some seg => some seg.asString
    | none => req.dataAuthor
  else req.dataAuthor

/-- server.js:215-216 — `tweet.text || ''`, falling back to
`fetchTweetText(url)` when the text is falsy and the URL truthy.  Also
returns the number of network calls the fallback made. -/
def effectiveText (env : EnvA) (req : RequestA) : String × Nat :=
  if req.dataText = "" && req.dataUrl ≠ "" then
    fetchTweetText req.dataUrl env.tweetHttp
  else (req.dataText, 0)

/-- The observable outcome of variant A's `POST /ingest`: the HTTP
response fields, the table after the request, and how often each
side-effecting collaborator was exercised. -/
structure ResultA where
  status : Nat
  ok : Bool
  summary : Option String
  saved : Option Bool
  pushed : Option Bool
  errorMsg : Option String
  db : List SummaryRecord
  geminiAttempts : Nat
  geminiDelayMs : Nat
  fetchCalls : Nat
  fcmCalled : Bool
deriving DecidableEq

/-- server.js:202-231 — variant A's `POST /ingest`.  Unauthorized
requests get `401` before anything runs; missing text gets `400`; a
`callGeminiSummary` throw is caught by the handler's `try` and mapped
to `500` with the error message; otherwise the record is saved
(idempotently), an FCM push is attempted, and `200` is returned with
the `saved`/`pushed` flags. -/
def ingestA (env : EnvA) (req : RequestA) (db : List SummaryRecord) :
    ResultA :=
  if !assertAuthorized env.ingestSecret req.xKey req.authHeader then
    ⟨401, false, none, none, none, some "Unauthorized", db, 0, 0, 0, false⟩
  else
    let author := effectiveAuthor req
    let (text, fetchCalls) := effectiveText env req
    if text = "" then
      ⟨400, false, none, none, none, some "Missing tweet text", db, 0, 0,
        fetchCalls, false⟩
    else
      let run := callGeminiSummary env.geminiKey env.geminiBackend
      match run.result with
      | .error e =>
        ⟨500, false, none, none, none, some e, db, run.attempts,
          run.delayMs, fetchCalls, false⟩
      | .ok summary =>
        let (db2, saved) := saveSummaryToDB env.hasDbUrl env.dbInsertFails
          db summary author req.dataUrl env.now
        let pushed := sendFCMNotification env.fcmReady env.fcmSendFails
        ⟨200, true, some summary, some saved, some pushed, none, db2,
          run.attempts, run.delayMs, fetchCalls, true⟩

/-! ## Variant B ingestion (`POST /ingest`, server.js:332-385) -/

/-- `String.prototype.split(sep)` for a one-character separator: JS
yields `[""]` on the empty string and keeps empty fields. -/
def splitOnChar (sep : Char) : List Char → List (List Char)
  | [] => [[]]
  | c :: rest =>
    let r := splitOnChar sep rest
    if c = sep then [] :: r
    else
      match r with
      | [] => [[c]]
      | h :: t => (c :: h) :: t

/-- server.js:333-338 — variant B's bearer check: the `authorization`
header must be present and truthy, start with `Bearer `, and its
second space-separated token (`authHeader.split(' ')[1]`) must equal
`process.env.INGEST_SECRET` (`none` models an unset secret, which a
string token never strictly equals). -/
def authorizedB (secret : Option String) (authHeader : Option String) :
    Bool :=
  match authHeader with
  | none => false
  | some h =>
    if h = "" then false
    else if !matchesAt "Bearer ".toList h.toList then false
    else
      match secret with
      | none => false
      | some s => ((splitOnChar ' ' h.toList).getD 1 []).asString == s

/-- The request fields variant B reads; body strings are read with
truthiness checks, so `""` models an absent field. -/
structure RequestB where
  authHeader : Option String
  summary_text : String
  tweet_author : String
  tweet_url : String

/-- The process environment and external world of variant B. -/
structure EnvB where
  ingestSecret : Option String
  dbFails : Bool
  fcmConfigured : Bool
  fcmSendFails : Bool
  now : Nat

/-- The observable outcome of variant B's `POST /ingest`.
`fcmDelivered` records whether `admin.messaging().send` succeeded; the
handler itself only logs a send failure (server.js:373-376). -/
structure ResultB where
  status : Nat
  ok : Bool
  item : Option SummaryRecord
  errorMsg : Option String
  db : List SummaryRecord
  fcmCalled : Bool
  fcmDelivered : Bool
deriving DecidableEq

/-- server.js:332-385 — variant B's `POST /ingest`: `401` on a failed
bearer check, `400` when any of the three body fields is falsy, `500`
when the insert throws; otherwise the row is appended, an FCM send is
attempted when the SDK is configured (its failure is caught and
ignored, server.js:370-376), and `200` is returned with the row. -/
def ingestB (env : EnvB) (req : RequestB) (db : List SummaryRecord) :
    ResultB :=
  if !authorizedB env.ingestSecret req.authHeader then
    ⟨401, false, none, some "Unauthorized", db, false, false⟩
  else if req.summary_text = "" || req.tweet_author = "" ||
      req.tweet_url = "" then
    ⟨400, false, none,
      some "Missing required fields: summary_text, tweet_author, tweet_url",
      db, false, false⟩
  else if env.dbFails then
    ⟨500, false, none, some "Internal Server Error", db, false, false⟩
  else
    let (db2, saved) := insertVariantB db req.summary_text req.tweet_author
      req.tweet_url env.now
    ⟨200, true, some saved, none, db2, env.fcmConfigured,
      env.fcmConfigured && !env.fcmSendFails⟩

/-! ## Claims -/

/-- C1 (counterexample): the claim asserts that in both variants a
second insert with an already-stored `tweet_url` is a no-op that keeps
the row count at 1.  In variant B, ingesting
`https://x.com/alice/status/1` a second time succeeds with `200` and
leaves two rows with that URL: its insert has no `ON CONFLICT` clause
and its schema no UNIQUE constraint. -/
theorem variantB_duplicate_url_counterexample :
    (ingestB ⟨some "sec", false, false, false, 3⟩
        ⟨some "Bearer sec", "s2", "alice", "https://x.com/alice/status/1"⟩
        [⟨"s1", some "alice", "https://x.com/alice/status/1", 0⟩]).status
      = 200 ∧
    countUrl
      (ingestB ⟨some "sec", false, false, false, 3⟩
        ⟨some "Bearer sec", "s2", "alice", "https://x.com/alice/status/1"⟩
        [⟨"s1", some "alice", "https://x.com/alice/status/1", 0⟩]).db
      "https://x.com/alice/status/1" = 2 := by
  decide

/-- C1 (amended): in variant A, `saveSummaryToDB` is idempotent on
`tweet_url`: whenever some stored row already carries the given URL,
the insert reports `inserted = false` and leaves the table unchanged,
so the row count for that URL stays what it was.  (Variant B's insert
has no uniqueness handling and duplicates the row instead.) -/
theorem saveSummaryToDB_idempotent (hasDbUrl dbFails : Bool)
    (db : List SummaryRecord) (summary : String) (author : Option String)
    (url : String) (now : Nat)
    (h : (db.any fun r => r.tweet_url == url) = true) :
    saveSummaryToDB hasDbUrl dbFails db summary author url now
      = (db, false) ∧
    countUrl
      (saveSummaryToDB hasDbUrl dbFails db summary author url now).1 url
      = countUrl db url := by
  unfold saveSummaryToDB
  cases hasDbUrl <;> cases dbFails <;> simp [h]

/-- C1 (witness): a concrete stored URL makes the second variant A
insert a no-op. -/
theorem saveSummaryToDB_idempotent_witness :
    saveSummaryToDB true false [⟨"s1", some "a", "u1", 0⟩] "s2" none "u1" 9
      = ([⟨"s1", some "a", "u1", 0⟩], false) ∧
    countUrl
      (saveSummaryToDB true false [⟨"s1", some "a", "u1", 0⟩] "s2" none
        "u1" 9).1 "u1"
      = countUrl [⟨"s1", some "a", "u1", 0⟩] "u1" :=
  saveSummaryToDB_idempotent true false [⟨"s1", some "a", "u1", 0⟩] "s2"
    none "u1" 9 (by decide)

/-- C5: on an oEmbed payload whose `html` is
`<p>Hello &amp; welcome</p>` the fetcher returns `Hello & welcome`
after one network call; the extraction takes the first paragraph
match, strips remaining tags, and decodes exactly the five entities
`&amp; &lt; &gt; &quot; &#39;` — `&nbsp;` is left alone. -/
theorem fetchTweetText_hello_welcome :
    fetchTweetText "https://x.com/a/status/1"
        ⟨.okJson (some "<p>Hello &amp; welcome</p>"), .notOk⟩
      = ("Hello & welcome", 1) ∧
    extractParagraph "<p>first</p><p>second</p>" = some "first" ∧
    extractParagraph "<p class=q>a<b>c</b>d</p>" = some "acd" ∧
    (extractParagraph "<p>&amp;&lt;&gt;&quot;&#39;&nbsp;</p>").map
        String.toList
      = some ['&', '<', '>', '"', Char.ofNat 39,
              '&', 'n', 'b', 's', 'p', ';'] := by
  decide

/-- C7: a `POST /ingest` whose credential fails the check gets `401`
from both variants with no side effect: the table is unchanged, no
summarization attempt, no tweet fetch, and no FCM call happens. -/
theorem ingest_unauthorized_is_pure (envA : EnvA) (reqA : RequestA)
    (envB : EnvB) (reqB : RequestB) (dbA dbB : List SummaryRecord)
    (hA : assertAuthorized envA.ingestSecret reqA.xKey reqA.authHeader
      = false)
    (hB : authorizedB envB.ingestSecret reqB.authHeader = false) :
    ingestA envA reqA dbA =
      ⟨401, false, none, none, none, some "Unauthorized", dbA, 0, 0, 0,
        false⟩ ∧
    ingestB envB reqB dbB =
      ⟨401, false, none, some "Unauthorized", dbB, false, false⟩ := by
  constructor
  · simp [ingestA, hA]
  · simp [ingestB, hB]

/-- C7 (witness): a concrete wrong bearer token is rejected by both
variants without touching a one-row table. -/
theorem ingest_unauthorized_is_pure_witness :
    ingestA ⟨"sec", some "k", true, false, true, false,
        (fun _ => .netErr "down"), ⟨.notOk, .notOk⟩, 7⟩
      ⟨some "wrong", none, "hi", none, "u1"⟩
      [⟨"s1", some "a", "u1", 0⟩] =
      ⟨401, false, none, none, none, some "Unauthorized",
        [⟨"s1", some "a", "u1", 0⟩], 0, 0, 0, false⟩ ∧
    ingestB ⟨some "sec", false, true, false, 3⟩
      ⟨some "Bearer wrong", "s", "a", "u"⟩
      [⟨"s1", some "a", "u1", 0⟩] =
      ⟨401, false, none, some "Unauthorized",
        [⟨"s1", some "a", "u1", 0⟩], false, false⟩ :=
  ingest_unauthorized_is_pure _ _ _ _ _ _ (by decide) (by decide)

/-- Unfolding one failing iteration of the retry loop: the attempt and
its possible 8-second delay are accounted and the loop continues. -/
theorem geminiGo_step (backend : Nat → GeminiFetch) (a n : Nat)
    (x e : String) (h : geminiAttempt (backend a) = .error e) :
    geminiGo backend a (n + 1) x =
      ⟨(geminiGo backend (a + 1) n e).result,
        (geminiGo backend (a + 1) n e).attempts + 1,
        (geminiGo backend (a + 1) n e).delayMs +
          (if n = 0 then 0 else 8000)⟩ := by
  simp [geminiGo, h]

/-- Unfolding one successful iteration of the retry loop: the summary
is returned at once, after this single attempt and no delay. -/
theorem geminiGo_step_ok (backend : Nat → GeminiFetch) (a n : Nat)
    (x s : String) (h : geminiAttempt (backend a) = .ok s) :
    geminiGo backend a (n + 1) x = ⟨.ok s, 1, 0⟩ := by
  simp [geminiGo, h]

/-- When every attempt fails, a loop admitting `n + 1` further
iterations makes exactly `n + 1` attempts, sleeps `8000 * n`
milliseconds, and reports the error of its last attempt. -/
theorem geminiGo_all_fail (backend : Nat → GeminiFetch)
    (hfail : ∀ i, ∃ e, geminiAttempt (backend i) = .error e) :
    ∀ n a x, ∃ e, geminiAttempt (backend (a + n)) = .error e ∧
      geminiGo backend a (n + 1) x =
        ⟨.error ("Gemini failed after 6 attempts: " ++ e), n + 1,
          8000 * n⟩ := by
  intro n
  induction n with
  | zero =>
    intro a x
    obtain ⟨e, h⟩ := hfail a
    refine ⟨e, by simpa using h, ?_⟩
    rw [geminiGo_step backend a 0 x e h]
    simp [geminiGo]
  | succ n ih =>
    intro a x
    obtain ⟨e, h⟩ := hfail a
    obtain ⟨e2, h2, hgo⟩ := ih (a + 1) e
    refine ⟨e2, ?_, ?_⟩
    · have hadd : a + 1 + n = a + (n + 1) := by omega
      rwa [hadd] at h2
    · rw [geminiGo_step backend a (n + 1) x e h, hgo]
      simp [Nat.mul_succ]

/-- C2: with a truthy API key and a backend whose every attempt fails
(rejected request, non-2xx status, 503 overload or bad JSON — every
`geminiAttempt` error), `callGeminiSummary` makes exactly 6 attempts
(1 initial + 5 retries), waits 5 × 8000 ms between consecutive
attempts, and throws the exhaustion error carrying the message of the
last (6th) attempt's failure. -/
theorem callGemini_always_failing_six_attempts (key : String)
    (backend : Nat → GeminiFetch) (hkey : key ≠ "")
    (hfail : ∀ i, ∃ e, geminiAttempt (backend i) = .error e) :
    ∃ e, geminiAttempt (backend 5) = .error e ∧
      callGeminiSummary (some key) backend =
        ⟨.error ("Gemini failed after 6 attempts: " ++ e), 6, 40000⟩ := by
  obtain ⟨e, h, hgo⟩ := geminiGo_all_fail backend hfail 5 0 ""
  refine ⟨e, by simpa using h, ?_⟩
  have hck : callGeminiSummary (some key) backend =
      geminiGo backend 0 6 "" := by
    simp [callGeminiSummary, hkey]
  rw [hck]
  simpa using hgo

/-- C2 (witness): a backend whose fetch always rejects with `boom`
exhausts all 6 attempts and 40 seconds of delay. -/
theorem callGemini_always_failing_six_attempts_witness :
    ∃ e, geminiAttempt ((fun _ => GeminiFetch.netErr "boom") 5)
        = .error e ∧
      callGeminiSummary (some "k") (fun _ => .netErr "boom") =
        ⟨.error ("Gemini failed after 6 attempts: " ++ e), 6, 40000⟩ :=
  callGemini_always_failing_six_attempts "k" (fun _ => .netErr "boom")
    (by decide) (fun _ => ⟨"boom", rfl⟩)

/-- C3: when the first attempt's response is 2xx with parseable JSON,
`callGeminiSummary` returns the first candidate text fragment (absent
mapped to `''`) trimmed of surrounding whitespace, after exactly one
attempt and no delay; an absent or empty fragment is returned as the
empty string — a success, with no retry and no error. -/
theorem callGemini_success_trims (key : String)
    (backend : Nat → GeminiFetch) (status : Nat) (body : String)
    (cand : Option String) (hkey : key ≠ "")
    (hb : backend 0 = .resp status body (.ok cand))
    (h1 : 200 ≤ status) (h2 : status < 300) :
    callGeminiSummary (some key) backend =
      ⟨.ok (jsTrim (cand.getD "")), 1, 0⟩ ∧
    (cand.getD "" = "" →
      callGeminiSummary (some key) backend = ⟨.ok "", 1, 0⟩) := by
  have hne : (status == 503) = false := by
    simp; omega
  have hatt : geminiAttempt (backend 0) = .ok (jsTrim (cand.getD "")) := by
    rw [hb]
    simp [geminiAttempt, hne, h1, h2]
  have hmain : callGeminiSummary (some key) backend =
      ⟨.ok (jsTrim (cand.getD "")), 1, 0⟩ := by
    have hck : callGeminiSummary (some key) backend =
        geminiGo backend 0 6 "" := by
      simp [callGeminiSummary, hkey]
    rw [hck, show (6 : Nat) = 5 + 1 from rfl,
      geminiGo_step_ok backend 0 5 "" _ hatt]
  refine ⟨hmain, fun hc => ?_⟩
  rw [hmain, hc]
  rfl

/-- C3 (witness): a 204 response whose payload has no candidate text
still succeeds, returning the empty string after one attempt. -/
theorem callGemini_success_trims_witness :
    callGeminiSummary (some "k") (fun _ => .resp 204 "body" (.ok none)) =
      ⟨.ok (jsTrim ((none : Option String).getD "")), 1, 0⟩ ∧
    ((none : Option String).getD "" = "" →
      callGeminiSummary (some "k") (fun _ => .resp 204 "body" (.ok none))
        = ⟨.ok "", 1, 0⟩) :=
  callGemini_success_trims "k" _ 204 "body" none (by decide) rfl
    (by decide) (by decide)

/-- The primary (oEmbed) lookup yields no snippet: whenever it returns
parsed JSON, the first-paragraph regex finds no match in its `html`. -/
def oembedNoMatch (env : TweetHttpEnv) : Prop :=
  ∀ html, env.oembed = .okJson html → extractParagraph (html.getD "") = none

/-- The secondary (syndication) lookup yields no text: whenever it
returns parsed JSON, its `text` field is falsy. -/
def syndicationNoText (env : TweetHttpEnv) : Prop :=
  ∀ t, env.syndication = .okJson t → jsTruthy t = false

/-- C4: `fetchTweetText` never fails its caller.  A falsy `url`
returns `''` with zero network calls; any error thrown inside the
`try` block (`fetchInner` ending in `.error`) is swallowed and mapped
to `''`; and when both lookups fail or yield no usable text the result
is `''` as well. -/
theorem fetchTweetText_never_throws (url : String) (env : TweetHttpEnv) :
    (url = "" → fetchTweetText url env = ("", 0)) ∧
    (∀ e n, url ≠ "" → fetchInner env = (.error e, n) →
      fetchTweetText url env = ("", n)) ∧
    (oembedNoMatch env → syndicationNoText env →
      (fetchTweetText url env).1 = "") := by
  refine ⟨fun h => by simp [fetchTweetText, h], ?_, ?_⟩
  · intro e n hu h
    simp [fetchTweetText, hu, h]
  · intro h1 h2
    by_cases hu : url = ""
    · simp [fetchTweetText, hu]
    · have hsynd : fetchSyndication env = (.ok "", 2) ∨
          ∃ m, fetchSyndication env = (.error m, 2) := by
        rcases hs : env.syndication with m | _ | m | t
        · exact .inr ⟨m, by simp [fetchSyndication, hs]⟩
        · exact .inl (by simp [fetchSyndication, hs])
        · exact .inr ⟨m, by simp [fetchSyndication, hs]⟩
        · exact .inl (by simp [fetchSyndication, hs, h2 t hs])
      have hinner : fetchInner env = (.ok "", 2) ∨
          ∃ m n, fetchInner env = (.error m, n) := by
        rcases ho : env.oembed with m | _ | m | html
        · exact .inr ⟨m, 1, by simp [fetchInner, ho]⟩
        · rcases hsynd with h | ⟨m, h⟩
          · exact .inl (by simp [fetchInner, ho, h])
          · exact .inr ⟨m, 2, by simp [fetchInner, ho, h]⟩
        · exact .inr ⟨m, 1, by simp [fetchInner, ho]⟩
        · rcases hsynd with h | ⟨m, h⟩
          · exact .inl (by simp [fetchInner, ho, h1 html ho, h])
          · exact .inr ⟨m, 2, by simp [fetchInner, ho, h1 html ho, h]⟩
      rcases hinner with h | ⟨m, n, h⟩
      · simp [fetchTweetText, hu, h]
      · simp [fetchTweetText, hu, h]

/-- C4 (witness): an empty URL makes no call; a rejected oEmbed fetch
is swallowed after one call; and when neither endpoint has usable
text the fetched string is empty. -/
theorem fetchTweetText_never_throws_witness :
    fetchTweetText "" ⟨.notOk, .notOk⟩ = ("", 0) ∧
    fetchTweetText "u" ⟨.fetchErr "nope", .notOk⟩ = ("", 1) ∧
    (fetchTweetText "u"
      ⟨.okJson (some "no para"), .okJson (some "")⟩).1 = "" :=
  ⟨(fetchTweetText_never_throws "" ⟨.notOk, .notOk⟩).1 rfl,
   (fetchTweetText_never_throws "u" ⟨.fetchErr "nope", .notOk⟩).2.1
     "nope" 1 (by decide) rfl,
   (fetchTweetText_never_throws "u"
      ⟨.okJson (some "no para"), .okJson (some "")⟩).2.2
     (by intro html h; cases h; decide)
     (by intro t h; cases h; decide)⟩

/-- C6: on a successful query, `GET /feed` answers `200` with
`ok: true` and the query's rows — at most 50 of them, pairwise ordered
non-increasing by `created_at` (newest first); when the query throws,
it answers `500` with `ok: false`. -/
theorem feed_limited_and_sorted (db : List SummaryRecord)
    (dbFails : Bool) :
    (dbFails = false →
      feedHandler dbFails db = ⟨200, true, recentFeed db⟩ ∧
      (feedHandler dbFails db).feed.length ≤ 50 ∧
      (feedHandler dbFails db).feed.Pairwise
        (fun a b => b.created_at ≤ a.created_at)) ∧
    (dbFails = true → feedHandler dbFails db = ⟨500, false, []⟩) := by
  constructor
  · intro h
    subst h
    refine ⟨rfl, ?_, ?_⟩
    · simp [feedHandler, recentFeed]
    · have htrans : ∀ a b c : SummaryRecord,
          newestFirst a b → newestFirst b c → newestFirst a c := by
        intro a b c hab hbc
        simp [newestFirst] at *
        omega
      have htotal : ∀ a b : SummaryRecord,
          newestFirst a b || newestFirst b a := by
        intro a b
        simp [newestFirst]
        omega
      have hs := List.sorted_mergeSort htrans htotal db
      have htake := hs.sublist (List.take_sublist 50 _)
      have hfeed : (feedHandler false db).feed = recentFeed db := rfl
      rw [hfeed]
      unfold recentFeed
      exact htake.imp fun hx => by simp [newestFirst] at hx; exact hx
  · intro h
    subst h
    rfl

/-- C6 (witness): a three-row table comes back in full, newest first,
and a throwing query yields the 500 response. -/
theorem feed_limited_and_sorted_witness :
    (feedHandler false
        [⟨"a", none, "u1", 5⟩, ⟨"b", none, "u2", 9⟩, ⟨"c", none, "u3", 1⟩]
      = ⟨200, true, recentFeed
        [⟨"a", none, "u1", 5⟩, ⟨"b", none, "u2", 9⟩, ⟨"c", none, "u3", 1⟩]⟩
      ∧ (feedHandler false
        [⟨"a", none, "u1", 5⟩, ⟨"b", none, "u2", 9⟩, ⟨"c", none, "u3", 1⟩]
        ).feed.length ≤ 50
      ∧ (feedHandler false
        [⟨"a", none, "u1", 5⟩, ⟨"b", none, "u2", 9⟩, ⟨"c", none, "u3", 1⟩]
        ).feed.Pairwise (fun a b => b.created_at ≤ a.created_at)) ∧
    feedHandler true [⟨"a", none, "u1", 5⟩] = ⟨500, false, []⟩ :=
  ⟨(feed_limited_and_sorted
      [⟨"a", none, "u1", 5⟩, ⟨"b", none, "u2", 9⟩, ⟨"c", none, "u3", 1⟩]
      false).1 rfl,
   (feed_limited_and_sorted [⟨"a", none, "u1", 5⟩] true).2 rfl⟩

/-- C8: `sendFCMNotification` returns `false` (rather than throwing)
whenever the Firebase SDK was never set up or the send fails; and in
both variants the FCM send outcome is invisible in the HTTP status and
`ok` flag of the ingestion response — flipping `fcmSendFails` changes
neither. -/
theorem fcm_failure_never_fails_request (fcmReady sendFails : Bool)
    (envA : EnvA) (reqA : RequestA) (envB : EnvB) (reqB : RequestB)
    (dbA dbB : List SummaryRecord) (b1 b2 : Bool)
    (h : fcmReady = false ∨ sendFails = true) :
    sendFCMNotification fcmReady sendFails = false ∧
    ((ingestA { envA with fcmSendFails := b1 } reqA dbA).status =
       (ingestA { envA with fcmSendFails := b2 } reqA dbA).status ∧
     (ingestA { envA with fcmSendFails := b1 } reqA dbA).ok =
       (ingestA { envA with fcmSendFails := b2 } reqA dbA).ok) ∧
    ((ingestB { envB with fcmSendFails := b1 } reqB dbB).status =
       (ingestB { envB with fcmSendFails := b2 } reqB dbB).status ∧
     (ingestB { envB with fcmSendFails := b1 } reqB dbB).ok =
       (ingestB { envB with fcmSendFails := b2 } reqB dbB).ok) := by
  refine ⟨?_, ?_, ?_⟩
  · rcases h with h | h <;> simp [sendFCMNotification, h]
  · by_cases hauth :
        assertAuthorized envA.ingestSecret reqA.xKey reqA.authHeader
    · rcases het : effectiveText envA reqA with ⟨text, n⟩
      have het1 : effectiveText { envA with fcmSendFails := b1 } reqA
          = (text, n) := het
      have het2 : effectiveText { envA with fcmSendFails := b2 } reqA
          = (text, n) := het
      by_cases ht : text = ""
      · simp [ingestA, hauth, het1, het2, ht]
      · rcases hr : (callGeminiSummary envA.geminiKey
            envA.geminiBackend).result with e | sm
        · simp [ingestA, hauth, het1, het2, ht, hr]
        · rcases hsv : saveSummaryToDB envA.hasDbUrl envA.dbInsertFails
            dbA sm (effectiveAuthor reqA) reqA.dataUrl envA.now
            with ⟨db2, sv⟩
          simp [ingestA, hauth, het1, het2, ht, hr, hsv]
    · simp [ingestA, hauth]
  · by_cases hb : authorizedB envB.ingestSecret reqB.authHeader
    · by_cases hf : (reqB.summary_text = "" || reqB.tweet_author = "" ||
          reqB.tweet_url = "") = true
      · simp [ingestB, hb, hf]
      · by_cases hd : envB.dbFails
        · simp [ingestB, hb, hf, hd]
        · simp [ingestB, hb, hf, hd]
    · simp [ingestB, hb]

/-- C8 (witness): with an unconfigured SDK and a failing send, the
publish reports `false`, and concrete successful ingestions keep their
status and `ok` flag whichever way the send goes. -/
theorem fcm_failure_never_fails_request_witness :
    sendFCMNotification false true = false ∧
    ((ingestA { (⟨"sec", some "k", true, false, true, false,
          fun _ => .netErr "dn", ⟨.notOk, .notOk⟩, 7⟩ : EnvA) with
          fcmSendFails := true }
        ⟨some "sec", none, "hi", none, "u1"⟩ []).status =
       (ingestA { (⟨"sec", some "k", true, false, true, false,
          fun _ => .netErr "dn", ⟨.notOk, .notOk⟩, 7⟩ : EnvA) with
          fcmSendFails := false }
        ⟨some "sec", none, "hi", none, "u1"⟩ []).status ∧
     (ingestA { (⟨"sec", some "k", true, false, true, false,
          fun _ => .netErr "dn", ⟨.notOk, .notOk⟩, 7⟩ : EnvA) with
          fcmSendFails := true }
        ⟨some "sec", none, "hi", none, "u1"⟩ []).ok =
       (ingestA { (⟨"sec", some "k", true, false, true, false,
          fun _ => .netErr "dn", ⟨.notOk, .notOk⟩, 7⟩ : EnvA) with
          fcmSendFails := false }
        ⟨some "sec", none, "hi", none, "u1"⟩ []).ok) ∧
    ((ingestB { (⟨some "s", false, true, false, 3⟩ : EnvB) with
          fcmSendFails := true }
        ⟨some "Bearer s", "sm", "al", "u1"⟩ []).status =
       (ingestB { (⟨some "s", false, true, false, 3⟩ : EnvB) with
          fcmSendFails := false }
        ⟨some "Bearer s", "sm", "al", "u1"⟩ []).status ∧
     (ingestB { (⟨some "s", false, true, false, 3⟩ : EnvB) with
          fcmSendFails := true }
        ⟨some "Bearer s", "sm", "al", "u1"⟩ []).ok =
       (ingestB { (⟨some "s", false, true, false, 3⟩ : EnvB) with
          fcmSendFails := false }
        ⟨some "Bearer s", "sm", "al", "u1"⟩ []).ok) :=
  fcm_failure_never_fails_request false true
    ⟨"sec", some "k", true, false, true, false,
      fun _ => .netErr "dn", ⟨.notOk, .notOk⟩, 7⟩
    ⟨some "sec", none, "hi", none, "u1"⟩
    ⟨some "s", false, true, false, 3⟩
    ⟨some "Bearer s", "sm", "al", "u1"⟩
    [] [] true false (.inl rfl)

/-- C9: when `INGEST_SECRET` is unset (variant A stores it as `''`),
`assertAuthorized` accepts every request whatever its headers, and no
variant A ingestion can answer `401`. -/
theorem empty_secret_disables_auth (env : EnvA) (req : RequestA)
    (db : List SummaryRecord) (h : env.ingestSecret = "") :
    assertAuthorized env.ingestSecret req.xKey req.authHeader = true ∧
    (ingestA env req db).status ≠ 401 := by
  have ha : assertAuthorized env.ingestSecret req.xKey req.authHeader
      = true := by
    simp [assertAuthorized, h]
  refine ⟨ha, ?_⟩
  unfold ingestA
  rw [ha]
  rcases het : effectiveText env req with ⟨text, n⟩
  by_cases ht : text = ""
  · simp [het, ht]
  · rcases hr : (callGeminiSummary env.geminiKey env.geminiBackend).result
      with e | s
    · simp [het, ht, hr]
    · rcases hsv : saveSummaryToDB env.hasDbUrl env.dbInsertFails db s
        (effectiveAuthor req) req.dataUrl env.now with ⟨db2, sv⟩
      simp [het, ht, hr, hsv]

/-- C9 (witness): with an empty secret a headerless request passes the
check and a concrete ingestion does not answer `401`. -/
theorem empty_secret_disables_auth_witness :
    assertAuthorized
      (EnvA.ingestSecret ⟨"", some "k", true, false, true, false,
        fun _ => .netErr "dn", ⟨.notOk, .notOk⟩, 7⟩)
      (RequestA.xKey ⟨none, none, "hi", none, "u"⟩)
      (RequestA.authHeader ⟨none, none, "hi", none, "u"⟩) = true ∧
    (ingestA ⟨"", some "k", true, false, true, false,
        fun _ => .netErr "dn", ⟨.notOk, .notOk⟩, 7⟩
      ⟨none, none, "hi", none, "u"⟩ []).status ≠ 401 :=
  empty_secret_disables_auth
    ⟨"", some "k", true, false, true, false,
      fun _ => .netErr "dn", ⟨.notOk, .notOk⟩, 7⟩
    ⟨none, none, "hi", none, "u"⟩ [] rfl

/-- C10: a falsy `GEMINI_API_KEY` makes `callGeminiSummary` throw
`Missing GEMINI_API_KEY` before any attempt — zero attempts, zero
delay — so an authorized variant A ingestion with obtainable text
fails `500` with that message, its table untouched. -/
theorem missing_key_fails_before_retry (env : EnvA) (req : RequestA)
    (db : List SummaryRecord) (hkey : env.geminiKey.getD "" = "")
    (hauth : assertAuthorized env.ingestSecret req.xKey req.authHeader
      = true)
    (htext : (effectiveText env req).1 ≠ "") :
    callGeminiSummary env.geminiKey env.geminiBackend =
      ⟨.error "Missing GEMINI_API_KEY", 0, 0⟩ ∧
    (ingestA env req db).status = 500 ∧
    (ingestA env req db).errorMsg = some "Missing GEMINI_API_KEY" ∧
    (ingestA env req db).geminiAttempts = 0 ∧
    (ingestA env req db).geminiDelayMs = 0 ∧
    (ingestA env req db).db = db := by
  have hc : callGeminiSummary env.geminiKey env.geminiBackend =
      ⟨.error "Missing GEMINI_API_KEY", 0, 0⟩ := by
    simp [callGeminiSummary, hkey]
  refine ⟨hc, ?_⟩
  unfold ingestA
  rw [hauth]
  rcases het : effectiveText env req with ⟨text, n⟩
  rw [het] at htext
  simp only [] at htext
  simp [het, htext, hc]

/-- C10 (witness): an authorized request with inline text against an
unset key fails fast with the missing-key message. -/
theorem missing_key_fails_before_retry_witness :
    callGeminiSummary
      (EnvA.geminiKey ⟨"", none, true, false, true, false,
        fun _ => .netErr "dn", ⟨.notOk, .notOk⟩, 7⟩)
      (EnvA.geminiBackend ⟨"", none, true, false, true, false,
        fun _ => .netErr "dn", ⟨.notOk, .notOk⟩, 7⟩) =
      ⟨.error "Missing GEMINI_API_KEY", 0, 0⟩ ∧
    (ingestA ⟨"", none, true, false, true, false,
        fun _ => .netErr "dn", ⟨.notOk, .notOk⟩, 7⟩
      ⟨none, none, "hi", none, "u"⟩ []).status = 500 ∧
    (ingestA ⟨"", none, true, false, true, false,
        fun _ => .netErr "dn", ⟨.notOk, .notOk⟩, 7⟩
      ⟨none, none, "hi", none, "u"⟩ []).errorMsg
      = some "Missing GEMINI_API_KEY" ∧
    (ingestA ⟨"", none, true, false, true, false,
        fun _ => .netErr "dn", ⟨.notOk, .notOk⟩, 7⟩
      ⟨none, none, "hi", none, "u"⟩ []).geminiAttempts = 0 ∧
    (ingestA ⟨"", none, true, false, true, false,
        fun _ => .netErr "dn", ⟨.notOk, .notOk⟩, 7⟩
      ⟨none, none, "hi", none, "u"⟩ []).geminiDelayMs = 0 ∧
    (ingestA ⟨"", none, true, false, true, false,
        fun _ => .netErr "dn", ⟨.notOk, .notOk⟩, 7⟩
      ⟨none, none, "hi", none, "u"⟩ []).db = [] :=
  missing_key_fails_before_retry
    ⟨"", none, true, false, true, false,
      fun _ => .netErr "dn", ⟨.notOk, .notOk⟩, 7⟩
    ⟨none, none, "hi", none, "u"⟩ [] rfl (by decide) (by decide)

end CapitolWire
